import Mathlib

/-!
Shallow embedding of the ACC-A MCQ training app (`src/App.jsx`).

Modelling conventions:
* JS objects used as string-keyed maps (`answers`, `byChap`) become functions
  to `Option` or association lists mirroring insertion order.
* JS numbers that are indices or counters become `Nat`; the one place the
  code rounds a fraction (`Math.round(ok/total*100)`) is modelled with exact
  rational arithmetic.
* The browser `confirm` dialog is modelled by a boolean oracle argument
  (the value the dialog would return) together with a returned flag that
  records whether the dialog was shown.
* `Math.random()` draws inside the Fisher-Yates shuffle are modelled by an
  oracle `rand : Nat → Nat`; `Math.floor(Math.random() * (i + 1))` always
  lies in `[0, i]`, which is encoded by reducing the draw modulo `i + 1`.
* Imported JSON is modelled by an explicit JSON value type; property access
  on it returns `Option` (`none` = `undefined`).
-/

namespace Acca

/-- The `view` state: `"home" | "quiz" | "results"`. -/
inductive View where
  | home
  | quiz
  | results
deriving DecidableEq, Repr

/-- A question record of the bank (the `McqQuestion` typedef). -/
structure Question where
  id : String
  chapitre : String
  niveau : String
  question : String
  choices : List String
  answerIndex : Nat
  explanation : Option String
  sources : Option (List String)
deriving DecidableEq, Repr

/-- The session state held by the component: `view`, `quiz`, `order`, `idx`,
`answers` (id → chosen choice index), `startedAt`, `timeLeft`. -/
structure AppState where
  view : View
  quiz : List Question
  order : List Nat
  idx : Nat
  answers : String → Option Nat
  startedAt : Nat
  timeLeft : Nat

/-- `record(q, choiceIdx)`: `setAnswers(a => ({ ...a, [q.id]: choiceIdx }))`. -/
def record (s : AppState) (q : Question) (choiceIdx : Nat) : AppState :=
  { s with answers := fun k => if k = q.id then some choiceIdx else s.answers k }

/-- The results-view "Nouvelle session" button: `onClick={() => setView("home")}`. -/
def newSession (s : AppState) : AppState :=
  { s with view := View.home }

/-- `restartToHome()` (the "Quitter" button): resets the view and the whole
session state. -/
def restartToHome (s : AppState) : AppState :=
  { s with view := View.home, quiz := [], order := [], idx := 0,
           answers := fun _ => none, startedAt := 0, timeLeft := 0 }

/-- `quiz.filter(q => answers[q.id] == null).length`: the number of quiz
questions with no recorded answer. -/
def unansweredCount (s : AppState) : Nat :=
  (s.quiz.filter fun q => (s.answers q.id).isNone).length

/-- `finish()`: when unanswered questions remain and the view is `quiz`, asks
`confirm(...)` and aborts if declined; otherwise moves to `results`.
`confirmResp` is the value the dialog would return if shown; the returned
flag records whether the dialog was shown. -/
def finish (s : AppState) (confirmResp : Bool) : AppState × Bool :=
  if 0 < unansweredCount s ∧ s.view = View.quiz then
    if confirmResp then ({ s with view := View.results }, true)
    else (s, true)
  else ({ s with view := View.results }, false)

/-- One firing of the timer interval callback (`setInterval` body): recompute
`elapsed`, set `timeLeft` to `Math.max(0, total - elapsed)` (the `Nat`
subtraction), and when it reaches zero call `finish`. `now` is `Date.now()`
in milliseconds; `startedAt = 0` falls back to `now` as in
`(startedAt || Date.now())`. -/
def timerTick (s : AppState) (timerMin : Nat) (now : Nat) (confirmResp : Bool) :
    AppState × Bool :=
  let total := timerMin * 60
  let started := if s.startedAt = 0 then now else s.startedAt
  let elapsed := (now - started) / 1000
  let left := total - elapsed
  let s' := { s with timeLeft := left }
  if left ≤ 0 then finish s' confirmResp else (s', false)

/-- `[arr[i], arr[j]] = [arr[j], arr[i]]` on lists: swap the entries at `i`
and `j` (identity when an index is out of range). -/
def swapL {α : Type} (l : List α) (i j : Nat) : List α :=
  match l.get? i, l.get? j with
  | some x, some y => (l.set i y).set j x
  | _, _ => l

/-- The Fisher-Yates loop of `shuffle`: for `i` from `n - 1` down to `1`,
swap `arr[i]` with `arr[j]`, `j = Math.floor(Math.random() * (i + 1))`.
The draw is the oracle `rand i`, reduced modulo `i + 1` to encode the range
guarantee `0 ≤ j ≤ i` of the source expression. -/
def fyAux {α : Type} (rand : Nat → Nat) : List α → Nat → List α
  | l, 0 => l
  | l, i + 1 => fyAux rand (swapL l (i + 1) (rand (i + 1) % (i + 2))) i

/-- `shuffle(a)`: copy the array, then run the Fisher-Yates loop from the
last index. -/
def shuffle {α : Type} (l : List α) (rand : Nat → Nat) : List α :=
  fyAux rand l (l.length - 1)

/-- The quiz list built by `start()`: the filtered list, shuffled when
`randomize` is set, then `slice(0, Math.min(count, list.length))`. -/
def buildQuiz (filtered : List Question) (randomize : Bool) (count : Nat)
    (rand : Nat → Nat) : List Question :=
  let list := if randomize then shuffle filtered rand else filtered
  list.take (min count list.length)

/-- `start()`: with an empty filtered list, alerts and changes nothing;
otherwise installs the built quiz, the identity order, empty answers,
`idx = 0`, the start time and the initial `timeLeft`. -/
def start (s : AppState) (filtered : List Question) (randomize : Bool)
    (count : Nat) (timerOn : Bool) (timerMin : Nat) (rand : Nat → Nat)
    (now : Nat) : AppState :=
  if filtered = [] then s
  else
    let slice := buildQuiz filtered randomize count rand
    { s with quiz := slice, order := List.range slice.length, answers := fun _ => none,
             idx := 0, startedAt := now,
             timeLeft := if timerOn then timerMin * 60 else 0, view := View.quiz }

/-- JSON values as produced by `JSON.parse` (numbers restricted to the
integers, the only numeric shape the code consumes). -/
inductive JVal where
  | null
  | bool (b : Bool)
  | num (n : Int)
  | str (s : String)
  | arr (xs : List JVal)
  | obj (fields : List (String × JVal))

/-- First-match lookup in an object's field list. -/
def lookupField : List (String × JVal) → String → Option JVal
  | [], _ => none
  | (k, v) :: rest, f => if k = f then some v else lookupField rest f

/-- JS property access `q.f`: `none` models `undefined` (also for access on
a non-object value). -/
def getField (q : JVal) (f : String) : Option JVal :=
  match q with
  | JVal.obj fields => lookupField fields f
  | _ => none

/-- JS truthiness of a possibly-missing value (`undefined`, `null`, `false`,
`0` and `""` are falsy). -/
def truthyOpt : Option JVal → Bool
  | none => false
  | some JVal.null => false
  | some (JVal.bool b) => b
  | some (JVal.num n) => !(n == 0)
  | some (JVal.str s) => !(s == "")
  | some (JVal.arr _) => true
  | some (JVal.obj _) => true

/-- `Array.isArray` on a possibly-missing value. -/
def isArrOpt : Option JVal → Bool
  | some (JVal.arr _) => true
  | _ => false

/-- `typeof v === "number"` on a possibly-missing value. -/
def isNumOpt : Option JVal → Bool
  | some (JVal.num _) => true
  | _ => false

/-- `q.type === "mcq"` (strict equality, so only the string succeeds). -/
def isTypeMcq (q : JVal) : Bool :=
  match getField q "type" with
  | some (JVal.str s) => s == "mcq"
  | _ => false

/-- The three validation checks of the import loop body, in source order;
returns the thrown error message, or `none` when the record passes. -/
def validateRecord (q : JVal) : Option String :=
  if !isTypeMcq q then
    some "Toutes les questions doivent etre de type mcq"
  else if !isArrOpt (getField q "choices") || !isNumOpt (getField q "answerIndex") then
    some "Chaque question doit avoir choices et answerIndex"
  else if truthyOpt (getField q "sources") && !isArrOpt (getField q "sources") then
    some "sources doit etre un tableau de chaines"
  else none

/-- The `for (const q of data)` validation loop: the first thrown error. -/
def firstError : List JVal → Option String
  | [] => none
  | q :: qs =>
    match validateRecord q with
    | some e => some e
    | none => firstError qs

/-- `importBankFromFile` after `JSON.parse` succeeded: a non-array or any
failing record reports an error and leaves the bank unchanged; otherwise
`setBank(data)` wholesale replaces the bank. -/
def importBank (data : JVal) (bank : List JVal) : List JVal × Option String :=
  match data with
  | JVal.arr qs =>
    match firstError qs with
    | some e => (bank, some e)
    | none => (qs, none)
  | _ => (bank, some "Le JSON doit etre un tableau")

/-- The bounds invariant on an imported record: `answerIndex` is a valid
index into `choices`. -/
def boundsOk (q : JVal) : Bool :=
  match getField q "choices", getField q "answerIndex" with
  | some (JVal.arr cs), some (JVal.num n) => decide (0 ≤ n) && decide (n < cs.length)
  | _, _ => false

/-- `replaceAll('"', '""')`, character by character (the pattern is the
single character `"`). -/
def escList : List Char → List Char
  | [] => []
  | c :: cs => if c = '"' then '"' :: '"' :: escList cs else c :: escList cs

/-- Quote escaping of a whole string. -/
def escQuotes (s : String) : String := ⟨escList s.data⟩

/-- The nine fields of one row of `exportResultsCSV`, in order, before they
are joined with `";"`. Translated from the `lines.push([...])` expression:
the chapter field is quoted but NOT escaped; `niveau`, `id` and the
correctness flag are unquoted. -/
def csvFields (answers : String → Option Nat) (q : Question) : List String :=
  let ans := answers q.id
  let correct := if ans = some q.answerIndex then "1" else "0"
  let sources := match q.sources with
    | some ss => String.intercalate " || " ss
    | none => ""
  [ q.id,
    "\"" ++ q.chapitre ++ "\"",
    q.niveau,
    "\"" ++ escQuotes q.question ++ "\"",
    "\"" ++ String.intercalate " | " (q.choices.map escQuotes) ++ "\"",
    "\"" ++ (match ans with
      | some i => escQuotes ((q.choices.get? i).getD "")
      | none => "") ++ "\"",
    correct,
    "\"" ++ (match q.explanation with
      | some e => escQuotes e
      | none => "") ++ "\"",
    "\"" ++ escQuotes sources ++ "\"" ]

/-- Modelled from the spec sentence "quoted fields (quotes escaped by
doubling) ... columns: id, chapter, level, question, pipe-joined choices,
chosen answer text, correctness flag, explanation, sources": the same row
with EVERY quoted field's content escaped, the chapter field included. -/
def csvFieldsClaim (answers : String → Option Nat) (q : Question) : List String :=
  let ans := answers q.id
  let correct := if ans = some q.answerIndex then "1" else "0"
  let sources := match q.sources with
    | some ss => String.intercalate " || " ss
    | none => ""
  [ q.id,
    "\"" ++ escQuotes q.chapitre ++ "\"",
    q.niveau,
    "\"" ++ escQuotes q.question ++ "\"",
    "\"" ++ String.intercalate " | " (q.choices.map escQuotes) ++ "\"",
    "\"" ++ (match ans with
      | some i => escQuotes ((q.choices.get? i).getD "")
      | none => "") ++ "\"",
    correct,
    "\"" ++ (match q.explanation with
      | some e => escQuotes e
      | none => "") ++ "\"",
    "\"" ++ escQuotes sources ++ "\"" ]

/-- One CSV row: the fields joined with `";"`. -/
def csvRow (answers : String → Option Nat) (q : Question) : String :=
  String.intercalate ";" (csvFields answers q)

/-- The CSV header line. -/
def csvHeader : String :=
  "id;chapitre;niveau;question;choix;reponse;correct;explication;sources"

/-- `exportResultsCSV()`: nothing when the quiz is empty, else the header and
one row per quiz question, joined by newlines. -/
def exportResultsCSV (quiz : List Question) (answers : String → Option Nat) :
    Option String :=
  if quiz = [] then none
  else some (String.intercalate "\n" (csvHeader :: quiz.map (csvRow answers)))

/-- A per-chapter tally `{ ok, total }`. -/
structure ChapScore where
  ok : Nat
  total : Nat
deriving DecidableEq, Repr

/-- `answers[q.id] === q.answerIndex` (an absent answer is never correct). -/
def isCorrect (answers : String → Option Nat) (q : Question) : Bool :=
  answers q.id == some q.answerIndex

/-- The `byChap` update of one loop iteration: create the entry at the end on
first sight (object insertion order), bump `total`, and bump `ok` when the
answer was correct. -/
def bumpChap : List (String × ChapScore) → String → Bool → List (String × ChapScore)
  | [], c, good => [(c, ⟨if good then 1 else 0, 1⟩)]
  | (c', sc) :: rest, c, good =>
    if c' = c then (c', ⟨if good then sc.ok + 1 else sc.ok, sc.total + 1⟩) :: rest
    else (c', sc) :: bumpChap rest c good

/-- One iteration of the scoring loop over `(ok, byChap)`. -/
def scoreStep (answers : String → Option Nat)
    (acc : Nat × List (String × ChapScore)) (q : Question) :
    Nat × List (String × ChapScore) :=
  let good := isCorrect answers q
  (if good then acc.1 + 1 else acc.1, bumpChap acc.2 q.chapitre good)

/-- The value of the `score` memo in the results view. -/
structure Score where
  ok : Nat
  total : Nat
  pct : Nat
  byChap : List (String × ChapScore)

/-- The `score` useMemo body: fold the loop over the quiz, then
`total = quiz.length` and `pct = total ? Math.round(ok/total*100) : 0`.
`Math.round` on this nonnegative exact value is `⌊x + 1/2⌋`, which is
`(200*ok + total) / (2*total)` in `Nat` division. -/
def computeScore (quiz : List Question) (answers : String → Option Nat) : Score :=
  let r := quiz.foldl (scoreStep answers) (0, [])
  let total := quiz.length
  let pct := if total = 0 then 0 else (200 * r.1 + total) / (2 * total)
  ⟨r.1, total, pct, r.2⟩

/-- Object read `byChap[c]` on the association-list model. -/
def lookupChap : List (String × ChapScore) → String → Option ChapScore
  | [], _ => none
  | (c', sc) :: rest, c => if c' = c then some sc else lookupChap rest c

/-- The first default-bank question (`q_renf_1`). -/
def qRenf1 : Question :=
  { id := "q_renf_1", chapitre := "Renforcement", niveau := "débutant",
    question := "Lequel illustre un renforcement positif ?",
    choices := ["Retirer une corvée après un bon comportement",
                "Donner une friandise après une réponse correcte",
                "Ignorer un comportement pour qu\x27il diminue",
                "Ajouter une punition après un comportement"],
    answerIndex := 1,
    explanation := some "Renforcement positif = ajout d\x27un stimulus agréable contingent au comportement.",
    sources := some ["Miltenberger — Renforcement (principes)"] }

/-- The second default-bank question (`q_ext_1`). -/
def qExt1 : Question :=
  { id := "q_ext_1", chapitre := "Extinction", niveau := "intermédiaire",
    question := "Quel phénomène est typique au début d\x27une procédure d\x27extinction ?",
    choices := ["Diminution immédiate stable", "Extinction burst",
                "Généralisation immédiate", "Disparition définitive"],
    answerIndex := 1,
    explanation := some "Augmentation transitoire de la fréquence ou intensité au début de l\x27extinction.",
    sources := some ["Miltenberger — Extinction (phénomènes associés)"] }

/-- The third default-bank question (`q_prog_1`). -/
def qProg1 : Question :=
  { id := "q_prog_1", chapitre := "Programmes de renforcement", niveau := "avancé",
    question := "Quel programme est le plus résistant à l\x27extinction ?",
    choices := ["CRF", "FR", "VR", "FI"],
    answerIndex := 2,
    explanation := some "Les programmes VR sont les plus résistants à l\x27extinction.",
    sources := some ["Miltenberger — Programmes de renforcement"] }

/-- The fourth default-bank question (`q_mes_1`). -/
def qMes1 : Question :=
  { id := "q_mes_1", chapitre := "Mesure", niveau := "débutant",
    question := "Laquelle est une dimension temporelle du comportement ?",
    choices := ["Fréquence", "Durée", "Topographie", "Intensité"],
    answerIndex := 1,
    explanation := some "La durée mesure le temps pendant lequel le comportement se produit.",
    sources := some ["Miltenberger — Mesure et enregistrement"] }

/-- The built-in `DEFAULT_BANK` array. -/
def DEFAULT_BANK : List Question := [qRenf1, qExt1, qProg1, qMes1]

/-- A quiz-view state over the first default question, with nothing answered
and the timer started at millisecond 1000 (used as a concrete input). -/
def timedState : AppState :=
  { view := View.quiz, quiz := [qRenf1], order := [0], idx := 0,
    answers := fun _ => none, startedAt := 1000, timeLeft := 60 }

/-- A results-view state with one recorded answer (used as a concrete input). -/
def resultsState : AppState :=
  { view := View.results, quiz := [qRenf1], order := [0], idx := 0,
    answers := fun k => if k = "q_renf_1" then some 0 else none,
    startedAt := 5, timeLeft := 0 }

/-- A question whose chapter contains a double quote (concrete input for the
CSV escaping analysis). -/
def qQuoteChap : Question :=
  { id := "qx", chapitre := "A\"B", niveau := "débutant", question := "Q",
    choices := ["a", "b"], answerIndex := 0, explanation := none, sources := none }

/-- An imported record that is valid except that its `sources` array contains
a number instead of a string. -/
def recBadSources : JVal :=
  JVal.obj [("type", JVal.str "mcq"),
            ("choices", JVal.arr [JVal.str "a", JVal.str "b"]),
            ("answerIndex", JVal.num 0),
            ("sources", JVal.arr [JVal.num 42])]

/-- An imported record passing validation whose `answerIndex` (5) is out of
bounds of its single-element `choices`. -/
def recOutOfBounds : JVal :=
  JVal.obj [("type", JVal.str "mcq"),
            ("choices", JVal.arr [JVal.str "seul"]),
            ("answerIndex", JVal.num 5)]

/-- An imported record missing `answerIndex`. -/
def recMissingAnswer : JVal :=
  JVal.obj [("type", JVal.str "mcq"),
            ("choices", JVal.arr [JVal.str "a", JVal.str "b"])]

/-- A fully valid imported record. -/
def recGood : JVal :=
  JVal.obj [("type", JVal.str "mcq"),
            ("choices", JVal.arr [JVal.str "a", JVal.str "b"]),
            ("answerIndex", JVal.num 1),
            ("sources", JVal.arr [JVal.str "src"])]

/-! ## Theorems -/

/-- C9: recording sets `answers[q.id]` to the chosen choice index, and
re-answering the same question overwrites: after two successive records for
the same question id only the latest choice index is retained (the whole
state after the two records equals the state after only the second). -/
theorem record_overwrites (s : AppState) (q : Question) (c₁ c₂ : Nat) :
    (record (record s q c₁) q c₂).answers q.id = some c₂ ∧
    record (record s q c₁) q c₂ = record s q c₂ := by
  constructor
  · simp [record]
  · show AppState.mk _ _ _ _ _ _ _ = AppState.mk _ _ _ _ _ _ _
    simp only [record]
    congr 1
    funext k
    by_cases h : k = q.id <;> simp [h]

/-- C10: recording an answer touches only the answers entry of the recorded
question's id; every other answers entry and every other state component
(quiz, order, idx, view, startedAt, timeLeft) is unchanged. -/
theorem record_frame (s : AppState) (q : Question) (c : Nat) (k : String)
    (hk : k ≠ q.id) :
    (record s q c).answers k = s.answers k ∧
    (record s q c).quiz = s.quiz ∧ (record s q c).order = s.order ∧
    (record s q c).idx = s.idx ∧ (record s q c).view = s.view ∧
    (record s q c).startedAt = s.startedAt ∧
    (record s q c).timeLeft = s.timeLeft := by
  refine ⟨?_, rfl, rfl, rfl, rfl, rfl, rfl⟩
  simp [record, hk]

/-- Witness for C10 at a concrete state, question and foreign key. -/
theorem record_frame_witness :
    ("autre" : String) ≠ qRenf1.id ∧
    ((record timedState qRenf1 1).answers "autre" = timedState.answers "autre" ∧
     (record timedState qRenf1 1).quiz = timedState.quiz ∧
     (record timedState qRenf1 1).order = timedState.order ∧
     (record timedState qRenf1 1).idx = timedState.idx ∧
     (record timedState qRenf1 1).view = timedState.view ∧
     (record timedState qRenf1 1).startedAt = timedState.startedAt ∧
     (record timedState qRenf1 1).timeLeft = timedState.timeLeft) :=
  ⟨by decide, record_frame timedState qRenf1 1 "autre" (by decide)⟩

/-- C2 counterexample: in a concrete results-view state the "Nouvelle
session" button (which only runs `setView("home")`) leaves the selected
quiz, the order, the recorded answers and `startedAt` un-cleared. -/
theorem newSession_not_clearing :
    (newSession resultsState).quiz ≠ [] ∧
    (newSession resultsState).answers "q_renf_1" = some 0 ∧
    (newSession resultsState).order ≠ [] ∧
    (newSession resultsState).startedAt ≠ 0 := by
  refine ⟨?_, by simp [newSession, resultsState], ?_, ?_⟩ <;>
    simp [newSession, resultsState]

/-- C2 (amended): the "new session" transition only sets the view back to
`home` and leaves the quiz list, order, index, answers map and timer state
unchanged; it is the quit transition (`restartToHome`) that clears them all
to their empty/initial values. -/
theorem newSession_only_sets_view (s : AppState) :
    (newSession s).view = View.home ∧
    (newSession s).quiz = s.quiz ∧ (newSession s).order = s.order ∧
    (newSession s).idx = s.idx ∧ (newSession s).answers = s.answers ∧
    (newSession s).startedAt = s.startedAt ∧
    (newSession s).timeLeft = s.timeLeft ∧
    (restartToHome s).view = View.home ∧ (restartToHome s).quiz = [] ∧
    (restartToHome s).order = [] ∧ (restartToHome s).idx = 0 ∧
    (restartToHome s).answers = (fun _ => none) ∧
    (restartToHome s).startedAt = 0 ∧ (restartToHome s).timeLeft = 0 := by
  refine ⟨rfl, rfl, rfl, rfl, rfl, rfl, rfl, rfl, rfl, rfl, rfl, rfl, rfl, rfl⟩

/-- C1 counterexample: letting a 1-minute timer elapse on a concrete session
with an unanswered question makes the tick call `finish`, which DOES show
the unanswered-questions confirmation dialog (flag `true`), and when the
user declines the session does not transition to `results`. -/
theorem timer_expiry_prompts :
    (timerTick timedState 1 61000 false).2 = true ∧
    (timerTick timedState 1 61000 false).1.view ≠ View.results := by
  constructor <;> decide

/-- C1 (amended): when the timer reaches zero the tick triggers the finish
transition, but the confirmation is not bypassed: in the quiz view the
dialog is shown exactly when unanswered questions remain, and the session
moves to `results` exactly when none remain or the user confirms. -/
theorem timer_expiry_behavior (s : AppState) (m now : Nat) (r : Bool)
    (hview : s.view = View.quiz)
    (hz : m * 60 ≤ (now - (if s.startedAt = 0 then now else s.startedAt)) / 1000) :
    ((timerTick s m now r).2 = true ↔ 0 < unansweredCount s) ∧
    ((timerTick s m now r).1.view = View.results ↔
      (unansweredCount s = 0 ∨ r = true)) := by
  have hcnt : unansweredCount { s with timeLeft := 0 } = unansweredCount s := rfl
  have hleft : m * 60 - (now - (if s.startedAt = 0 then now else s.startedAt)) / 1000 = 0 :=
    Nat.sub_eq_zero_of_le hz
  simp only [timerTick, hleft, Nat.le_refl, if_pos, finish, hcnt]
  by_cases h0 : 0 < unansweredCount s
  · have : (0 < unansweredCount s ∧ s.view = View.quiz) := ⟨h0, hview⟩
    rw [if_pos this]
    cases r with
    | false =>
      simp [hview, h0]
      omega
    | true => simp [h0]
  · have : ¬ (0 < unansweredCount s ∧ s.view = View.quiz) := fun h => h0 h.1
    rw [if_neg this]
    simp at h0
    simp [h0]

/-- Witness for C1 (amended) at the concrete timed-out session. -/
theorem timer_expiry_behavior_witness :
    timedState.view = View.quiz ∧
    1 * 60 ≤ (61000 - (if timedState.startedAt = 0 then 61000 else timedState.startedAt)) / 1000 ∧
    (((timerTick timedState 1 61000 true).2 = true ↔ 0 < unansweredCount timedState) ∧
     ((timerTick timedState 1 61000 true).1.view = View.results ↔
       (unansweredCount timedState = 0 ∨ true = true))) :=
  ⟨by decide, by decide,
    timer_expiry_behavior timedState 1 61000 true (by decide) (by decide)⟩

/-- C3 counterexample: for a concrete question whose chapter contains a
double quote, the chapter field of the CSV row keeps the quote un-doubled,
so the row differs from the spec's all-fields-escaped description. -/
theorem csv_chapitre_not_escaped :
    (csvFields (fun _ => none) qQuoteChap).get? 1 = some "\"A\"B\"" ∧
    "\"A\"B\"" ≠ "\"" ++ escQuotes "A\"B" ++ "\"" ∧
    csvFields (fun _ => none) qQuoteChap ≠ csvFieldsClaim (fun _ => none) qQuoteChap := by
  refine ⟨rfl, by decide, ?_⟩
  intro h
  have h1 := congrArg (fun l => l.get? 1) h
  simp only [csvFields, csvFieldsClaim] at h1
  exact absurd (Option.some.inj h1) (by decide)

/-- C3 (amended): every quoted field of a results-CSV row has its quotes
escaped by doubling EXCEPT the chapter field, which is quoted but not
escaped (id, level and the correctness flag are unquoted); fields are
joined with semicolons, one row per question after the header. -/
theorem csvFields_escaping (answers : String → Option Nat) (q : Question) :
    (∀ i, i ≠ 1 → (csvFields answers q).get? i = (csvFieldsClaim answers q).get? i) ∧
    (csvFields answers q).get? 1 = some ("\"" ++ q.chapitre ++ "\"") ∧
    csvRow answers q = String.intercalate ";" (csvFields answers q) ∧
    ∀ quiz : List Question, quiz ≠ [] →
      exportResultsCSV quiz answers =
        some (String.intercalate "\n" (csvHeader :: quiz.map (csvRow answers))) := by
  refine ⟨?_, rfl, rfl, ?_⟩
  · intro i hi
    match i with
    | 0 => rfl
    | 1 => exact absurd rfl hi
    | 2 => rfl
    | 3 => rfl
    | 4 => rfl
    | 5 => rfl
    | 6 => rfl
    | 7 => rfl
    | 8 => rfl
    | n + 9 => rfl
  · intro quiz hq
    simp [exportResultsCSV, hq]

/-- Witness for C3 (amended) at a concrete question, index and quiz. -/
theorem csvFields_escaping_witness :
    ((3 : Nat) ≠ 1 ∧
      (csvFields (fun _ => none) qQuoteChap).get? 3 =
        (csvFieldsClaim (fun _ => none) qQuoteChap).get? 3) ∧
    (([qQuoteChap] : List Question) ≠ [] ∧
      exportResultsCSV [qQuoteChap] (fun _ => none) =
        some (String.intercalate "\n"
          (csvHeader :: [qQuoteChap].map (csvRow (fun _ => none))))) :=
  ⟨⟨by decide, (csvFields_escaping (fun _ => none) qQuoteChap).1 3 (by decide)⟩,
   ⟨by decide, (csvFields_escaping (fun _ => none) qQuoteChap).2.2.2 [qQuoteChap] (by decide)⟩⟩

/-- C4 counterexample: a record whose `sources` array contains a non-string
element (the number 42) passes every validation check and the import of an
array containing it is accepted, wholesale replacing the bank — the claimed
rejection does not happen. -/
theorem import_accepts_nonstring_sources :
    validateRecord recBadSources = none ∧
    importBank (JVal.arr [recBadSources]) [] = ([recBadSources], none) :=
  ⟨rfl, rfl⟩

/-- C4 (amended): import validation checks, for every record, that `type`
equals "mcq", that `choices` is a list and `answerIndex` is numeric, and
that `sources`, when present (truthy), is a list — but it does not inspect
the elements of `sources`, so a record whose `sources` contains a
non-string element is accepted. -/
theorem validateRecord_iff (q : JVal) :
    validateRecord q = none ↔
      (isTypeMcq q = true ∧ isArrOpt (getField q "choices") = true ∧
       isNumOpt (getField q "answerIndex") = true ∧
       (truthyOpt (getField q "sources") = true →
         isArrOpt (getField q "sources") = true)) := by
  unfold validateRecord
  cases h1 : isTypeMcq q <;>
    cases h2 : isArrOpt (getField q "choices") <;>
      cases h3 : isNumOpt (getField q "answerIndex") <;>
        cases h4 : truthyOpt (getField q "sources") <;>
          cases h5 : isArrOpt (getField q "sources") <;>
            simp_all

/-- Witness for C4 (amended): the fully valid record passes validation. -/
theorem validateRecord_iff_witness : validateRecord recGood = none :=
  (validateRecord_iff recGood).mpr ⟨by decide, by decide, by decide, fun _ => by decide⟩

/-- C5 counterexample: the import accepts (and installs as the new bank) a
record whose `answerIndex` (5) is out of bounds of its single-element
`choices`, so an accepted import does not preserve the bounds invariant. -/
theorem import_accepts_out_of_bounds :
    importBank (JVal.arr [recOutOfBounds]) [] = ([recOutOfBounds], none) ∧
    boundsOk recOutOfBounds = false :=
  ⟨rfl, rfl⟩

/-- C5 (amended): every question of the built-in default bank satisfies the
invariant that `answerIndex` is within bounds of `choices`; import
validation, however, does not enforce this invariant on accepted banks. -/
theorem default_bank_invariant (q : Question) (hq : q ∈ DEFAULT_BANK) :
    q.answerIndex < q.choices.length := by
  simp only [DEFAULT_BANK, List.mem_cons, List.not_mem_nil, or_false] at hq
  rcases hq with h | h | h | h <;> subst h <;> decide

/-- Witness for C5 (amended) at the first default-bank question. -/
theorem default_bank_invariant_witness :
    qRenf1 ∈ DEFAULT_BANK ∧ qRenf1.answerIndex < qRenf1.choices.length :=
  ⟨by decide, default_bank_invariant qRenf1 (by decide)⟩

/-- If some record of the list fails validation, the loop reports an error. -/
theorem firstError_ne_none {qs : List JVal} {q : JVal} (hq : q ∈ qs)
    (hbad : validateRecord q ≠ none) : firstError qs ≠ none := by
  induction qs with
  | nil => cases hq
  | cons a t ih =>
    unfold firstError
    cases hv : validateRecord a with
    | some e => simp
    | none =>
      rcases List.mem_cons.mp hq with h | h
      · exact absurd (h ▸ hv) hbad
      · exact ih h

/-- C6: if any record of an imported array fails validation, the entire
array is rejected with a reported error and the current bank is left
unchanged. -/
theorem import_rejects_whole (qs bank : List JVal) (q : JVal)
    (hq : q ∈ qs) (hbad : validateRecord q ≠ none) :
    (importBank (JVal.arr qs) bank).1 = bank ∧
    (importBank (JVal.arr qs) bank).2 ≠ none := by
  cases h : firstError qs with
  | none => exact absurd h (firstError_ne_none hq hbad)
  | some e =>
    simp [importBank, h]

/-- Witness for C6: importing an array whose one element is missing
`answerIndex` preserves the prior bank and reports an error. -/
theorem import_rejects_whole_witness :
    recMissingAnswer ∈ [recMissingAnswer] ∧ validateRecord recMissingAnswer ≠ none ∧
    ((importBank (JVal.arr [recMissingAnswer]) [recGood]).1 = [recGood] ∧
     (importBank (JVal.arr [recMissingAnswer]) [recGood]).2 ≠ none) :=
  ⟨List.mem_singleton.mpr rfl, by decide,
   import_rejects_whole [recMissingAnswer] [recGood] recMissingAnswer
     (List.mem_singleton.mpr rfl) (by decide)⟩

/-- Moving the `j`-th element of a list to the front while writing `x` in its
place is a permutation of putting `x` at the front. -/
theorem get_cons_set_perm {α : Type} (t : List α) (j : Nat) (x : α)
    (hj : j < t.length) :
    List.Perm (t.get ⟨j, hj⟩ :: t.set j x) (x :: t) := by
  induction t generalizing j with
  | nil => exact absurd hj (Nat.not_lt_zero j)
  | cons y t ih =>
    cases j with
    | zero => exact List.Perm.swap x y t
    | succ j =>
      have hj' : j < t.length := Nat.lt_of_succ_lt_succ hj
      have e1 : (y :: t).get ⟨j + 1, hj⟩ :: (y :: t).set (j + 1) x
          = t.get ⟨j, hj'⟩ :: y :: t.set j x := rfl
      rw [e1]
      refine List.Perm.trans (List.Perm.swap y (t.get ⟨j, hj'⟩) (t.set j x)) ?_
      exact List.Perm.trans (List.Perm.cons y (ih j hj')) (List.Perm.swap x y t)

/-- Writing each of two in-range positions with the other's value permutes
the list. -/
theorem set_set_perm {α : Type} (l : List α) (i j : Nat) (hi : i < l.length)
    (hj : j < l.length) :
    List.Perm ((l.set i (l.get ⟨j, hj⟩)).set j (l.get ⟨i, hi⟩)) l := by
  induction l generalizing i j with
  | nil => exact absurd hi (Nat.not_lt_zero i)
  | cons a t ih =>
    cases i with
    | zero =>
      cases j with
      | zero => simp
      | succ j =>
        have hj' : j < t.length := Nat.lt_of_succ_lt_succ hj
        have : ((a :: t).set 0 ((a :: t).get ⟨j + 1, hj⟩)).set (j + 1)
            ((a :: t).get ⟨0, hi⟩) = t.get ⟨j, hj'⟩ :: t.set j a := rfl
        rw [this]
        exact get_cons_set_perm t j a hj'
    | succ i =>
      have hi' : i < t.length := Nat.lt_of_succ_lt_succ hi
      cases j with
      | zero =>
        have : ((a :: t).set (i + 1) ((a :: t).get ⟨0, hj⟩)).set 0
            ((a :: t).get ⟨i + 1, hi⟩) = t.get ⟨i, hi'⟩ :: t.set i a := rfl
        rw [this]
        exact get_cons_set_perm t i a hi'
      | succ j =>
        have hj' : j < t.length := Nat.lt_of_succ_lt_succ hj
        exact List.Perm.cons a (ih i j hi' hj')

/-- A swap is a permutation. -/
theorem swapL_perm {α : Type} (l : List α) (i j : Nat) :
    List.Perm (swapL l i j) l := by
  unfold swapL
  cases hi : l.get? i with
  | none => exact List.Perm.refl l
  | some x =>
    cases hj : l.get? j with
    | none => exact List.Perm.refl l
    | some y =>
      have hi' : i < l.length := List.get?_eq_some.mp hi |>.1
      have hj' : j < l.length := List.get?_eq_some.mp hj |>.1
      have hx : l.get ⟨i, hi'⟩ = x := List.get?_eq_some.mp hi |>.2
      have hy : l.get ⟨j, hj'⟩ = y := List.get?_eq_some.mp hj |>.2
      rw [← hx, ← hy]
      exact set_set_perm l i j hi' hj'

/-- The Fisher-Yates loop permutes its input. -/
theorem fyAux_perm {α : Type} (rand : Nat → Nat) (l : List α) (i : Nat) :
    List.Perm (fyAux rand l i) l := by
  induction i generalizing l with
  | zero => exact List.Perm.refl l
  | succ i ih =>
    exact List.Perm.trans (ih _) (swapL_perm l (i + 1) (rand (i + 1) % (i + 2)))

/-- `shuffle` returns a permutation of its input. -/
theorem shuffle_perm {α : Type} (l : List α) (rand : Nat → Nat) :
    List.Perm (shuffle l rand) l :=
  fyAux_perm rand l (l.length - 1)

/-- C7: for any filtered set whose questions have pairwise distinct ids and
any configured count, the quiz built by `start` (optional shuffle, then
truncation) has exactly `min count filteredSize` questions, has no
duplicate question ids, and draws every question from the filtered set. -/
theorem buildQuiz_spec (filtered : List Question) (randomize : Bool)
    (count : Nat) (rand : Nat → Nat)
    (hids : (filtered.map Question.id).Nodup) :
    (buildQuiz filtered randomize count rand).length = min count filtered.length ∧
    ((buildQuiz filtered randomize count rand).map Question.id).Nodup ∧
    ∀ q ∈ buildQuiz filtered randomize count rand, q ∈ filtered := by
  have hp : List.Perm (if randomize then shuffle filtered rand else filtered) filtered := by
    cases randomize with
    | true => simpa using shuffle_perm filtered rand
    | false => simp
  have hlen : (if randomize then shuffle filtered rand else filtered).length
      = filtered.length := hp.length_eq
  refine ⟨?_, ?_, ?_⟩
  · simp only [buildQuiz, List.length_take, hlen]
    omega
  · have hnd : ((if randomize then shuffle filtered rand else filtered).map
        Question.id).Nodup := ((hp.map Question.id).nodup_iff).mpr hids
    exact List.Nodup.sublist (List.Sublist.map Question.id (List.take_sublist _ _)) hnd
  · intro q hq
    have : q ∈ (if randomize then shuffle filtered rand else filtered) :=
      List.take_subset _ _ hq
    exact hp.subset this

/-- Witness for C7: a concrete two-question filtered set, shuffled with a
concrete oracle and truncated to one question. -/
theorem buildQuiz_spec_witness :
    (([qRenf1, qExt1].map Question.id).Nodup) ∧
    ((buildQuiz [qRenf1, qExt1] true 1 (fun _ => 0)).length =
        min 1 ([qRenf1, qExt1] : List Question).length ∧
      ((buildQuiz [qRenf1, qExt1] true 1 (fun _ => 0)).map Question.id).Nodup ∧
      ∀ q ∈ buildQuiz [qRenf1, qExt1] true 1 (fun _ => 0), q ∈ [qRenf1, qExt1]) :=
  ⟨by decide, buildQuiz_spec [qRenf1, qExt1] true 1 (fun _ => 0) (by decide)⟩

/-- The `ok` accumulator of the scoring loop counts the correct questions. -/
theorem foldl_scoreStep_fst (answers : String → Option Nat) (quiz : List Question)
    (n : Nat) (m : List (String × ChapScore)) :
    (quiz.foldl (scoreStep answers) (n, m)).1 = n + quiz.countP (isCorrect answers) := by
  induction quiz generalizing n m with
  | nil => simp
  | cons q t ih =>
    simp only [List.foldl_cons, List.countP_cons, scoreStep]
    rw [ih]
    cases h : isCorrect answers q <;> (simp; try omega)

/-- Reading the chapter map after one bump. -/
theorem lookupChap_bumpChap (m : List (String × ChapScore)) (c' c : String)
    (good : Bool) :
    lookupChap (bumpChap m c' good) c =
      if c' = c then
        match lookupChap m c' with
        | some sc => some ⟨if good then sc.ok + 1 else sc.ok, sc.total + 1⟩
        | none => some ⟨if good then 1 else 0, 1⟩
      else lookupChap m c := by
  induction m with
  | nil =>
    by_cases hc : c' = c <;> simp [bumpChap, lookupChap, hc]
  | cons p rest ih =>
    obtain ⟨k, sc⟩ := p
    by_cases hk : k = c'
    · subst hk
      by_cases hc : k = c <;> simp [bumpChap, lookupChap, hc]
    · by_cases hc2 : k = c
      · subst hc2
        have hcc : ¬ c' = k := fun h => hk h.symm
        simp [bumpChap, lookupChap, hk, hcc]
      · simp [bumpChap, lookupChap, hk, hc2, ih]

/-- The chapter map built by the scoring loop groups `{ok, total}` by
chapter: each chapter key holds the number of its questions and the number
answered correctly, on top of whatever the accumulator already held. -/
theorem foldl_scoreStep_lookup (answers : String → Option Nat)
    (quiz : List Question) (n : Nat) (m : List (String × ChapScore)) (c : String) :
    lookupChap (quiz.foldl (scoreStep answers) (n, m)).2 c =
      match lookupChap m c with
      | some sc =>
          some ⟨sc.ok + quiz.countP (fun q => q.chapitre == c && isCorrect answers q),
                sc.total + quiz.countP (fun q => q.chapitre == c)⟩
      | none =>
          if quiz.countP (fun q => q.chapitre == c) = 0 then none
          else some ⟨quiz.countP (fun q => q.chapitre == c && isCorrect answers q),
                     quiz.countP (fun q => q.chapitre == c)⟩ := by
  induction quiz generalizing n m with
  | nil => cases h : lookupChap m c <;> simp [h]
  | cons q t ih =>
    simp only [List.foldl_cons, scoreStep]
    rw [ih, lookupChap_bumpChap]
    by_cases hc : q.chapitre = c
    · rw [hc]
      simp only [if_pos rfl, List.countP_cons, hc]
      cases hm : lookupChap m c with
      | some sc =>
        cases hg : isCorrect answers q <;>
          simp [List.countP_cons, hm] <;> omega
      | none =>
        cases hg : isCorrect answers q <;>
          simp [List.countP_cons, hm] <;> omega
    · have hbeq : (q.chapitre == c) = false := by
        simp [hc]
      rw [if_neg hc]
      simp only [List.countP_cons, hbeq, Bool.false_and, if_neg]
      cases hm : lookupChap m c <;> simp [hm]

/-- C8: a question is marked correct iff the recorded answer for its id
equals its `answerIndex`; `ok` counts the correct questions; `total` is the
quiz length; `pct` is 0 for an empty quiz and otherwise the half-up
rounding of `100*ok/total`; and the per-chapter map groups `{ok, total}`
by `chapitre`. -/
theorem score_spec (quiz : List Question) (answers : String → Option Nat) :
    (∀ q : Question, isCorrect answers q = true ↔ answers q.id = some q.answerIndex) ∧
    (computeScore quiz answers).ok = quiz.countP (isCorrect answers) ∧
    (computeScore quiz answers).total = quiz.length ∧
    (quiz.length = 0 → (computeScore quiz answers).pct = 0) ∧
    (quiz.length ≠ 0 →
      ((computeScore quiz answers).pct : ℤ) =
        round ((100 * ((computeScore quiz answers).ok : ℚ)) / (quiz.length : ℚ))) ∧
    (∀ c : String,
      lookupChap (computeScore quiz answers).byChap c =
        if quiz.countP (fun q => q.chapitre == c) = 0 then none
        else some ⟨quiz.countP (fun q => q.chapitre == c && isCorrect answers q),
                   quiz.countP (fun q => q.chapitre == c)⟩) := by
  refine ⟨?_, ?_, rfl, ?_, ?_, ?_⟩
  · intro q
    simp [isCorrect]
  · show (quiz.foldl (scoreStep answers) (0, [])).1 = _
    rw [foldl_scoreStep_fst]
    simp
  · intro h
    simp [computeScore, h]
  · intro h
    have hok : (computeScore quiz answers).ok
        = (quiz.foldl (scoreStep answers) (0, [])).1 := rfl
    have hpct : (computeScore quiz answers).pct
        = (200 * (computeScore quiz answers).ok + quiz.length)
            / (2 * quiz.length) := by
      simp [computeScore, h]
    have harg : (100 * ((computeScore quiz answers).ok : ℚ)) / (quiz.length : ℚ)
          + 1 / 2
        = ((200 * (computeScore quiz answers).ok + quiz.length : ℕ) : ℚ)
            / ((2 * quiz.length : ℕ) : ℚ) := by
      have hq : ((quiz.length : ℚ)) ≠ 0 := Nat.cast_ne_zero.mpr h
      push_cast
      field_simp
      ring
    rw [round_eq, harg, hpct, ← Nat.floor_div_eq_div (α := ℚ)]
    exact Int.natCast_floor_eq_floor (by positivity)
  · intro c
    show lookupChap (quiz.foldl (scoreStep answers) (0, [])).2 c = _
    rw [foldl_scoreStep_lookup]
    simp [lookupChap]

/-- Witness for C8: the rounded percentage at a concrete one-question quiz
with its question answered correctly. -/
theorem score_spec_witness :
    ((computeScore [qRenf1] (fun k => if k = "q_renf_1" then some 1 else none)).pct : ℤ) =
      round ((100 * ((computeScore [qRenf1]
          (fun k => if k = "q_renf_1" then some 1 else none)).ok : ℚ))
        / (([qRenf1] : List Question).length : ℚ)) :=
  (score_spec [qRenf1] (fun k => if k = "q_renf_1" then some 1 else none)).2.2.2.2.1
    (by decide)

end Acca
